import Mathlib

/-!
Shallow embedding of the `ignite-rs` derive-generated complex-object codec
(`src/ignite-rs_derive/src/lib.rs`) and proofs about it.

Byte streams are `List Nat` with each element a byte value; 32-bit signed
(`i32`) values are `Int` normalized into `[-2^31, 2^31)` by `toSigned32`,
mirroring Rust two's-complement wrapping semantics.
-/

set_option autoImplicit false

namespace Ignite

variable {V V₁ V₂ : Type}

/-- Wrap an integer into the `i32` range `[-2^31, 2^31)`, i.e. Rust
two's-complement wrapping semantics for 32-bit signed arithmetic. -/
def toSigned32 (x : Int) : Int := (x + 2147483648) % 4294967296 - 2147483648

/-- The unsigned 32-bit two's-complement bit pattern of an integer, as a `Nat`. -/
def bits32 (x : Int) : Nat := (x % 4294967296).toNat

/-- Byte `k` (least significant first) of a nonnegative integer `m`. -/
def byteAt (m k : Nat) : Nat := m / 256 ^ k % 256

/-- Little-endian 4-byte encoding of an `i32` value (Rust `write_i32`,
modelled from the spec: multi-byte integers are little-endian). -/
def i32le (x : Int) : List Nat :=
  [byteAt (bits32 x) 0, byteAt (bits32 x) 1, byteAt (bits32 x) 2, byteAt (bits32 x) 3]

/-- Little-endian 2-byte encoding of a `u16` value (Rust `write_u16`,
modelled from the spec). -/
def u16le (v : Nat) : List Nat := [v % 256, v / 256 % 256]

/-! ## Hash functions (from `src/ignite-rs_derive/src/lib.rs`) -/

/-- `string_to_java_hashcode` (lib.rs:212-218): Java-style polynomial string
hash. The source computes `hash = 31i32.overflowing_mul(hash).0 + char as i32`
per character; both the wrapping multiply and the (release-mode wrapping)
addition are rendered by `toSigned32`. -/
def string_to_java_hashcode (value : String) : Int :=
  value.data.foldl (fun hash c => toSigned32 (toSigned32 (31 * hash) + (c.toNat : Int))) 0

/-- FNV1 hash offset basis (lib.rs:7), as the 32-bit pattern of
`0x811C_9DC5_u32 as i32`. -/
def FNV1_OFFSET_BASIS : Nat := 0x811C9DC5

/-- FNV1 hash prime (lib.rs:9). -/
def FNV1_PRIME : Nat := 0x01000193

/-- One FNV1 fold step of `get_schema_id` (lib.rs:197-207), operating on the
32-bit two's-complement pattern of the `i32` accumulator: the source's
`res ^= (hash >> 8k) & 0xFF; res = res.overflowing_mul(FNV1_PRIME).0` per byte,
least-significant byte first. XOR of `i32` values is XOR of their bit
patterns, `(hash >> 8k) & 0xFF` extracts byte `k` of the pattern, and
`overflowing_mul` is multiplication of patterns modulo `2^32`. -/
def fnv1Step (acc hashBits : Nat) : Nat :=
  let a0 := (acc ^^^ byteAt hashBits 0) * FNV1_PRIME % 4294967296
  let a1 := (a0 ^^^ byteAt hashBits 1) * FNV1_PRIME % 4294967296
  let a2 := (a1 ^^^ byteAt hashBits 2) * FNV1_PRIME % 4294967296
  (a2 ^^^ byteAt hashBits 3) * FNV1_PRIME % 4294967296

/-! ## Data model

The derive macro generates code for an arbitrary named struct; we embed a
struct as an ordered list of fields, each with a name and a value codec
(`WritableType`/`ReadableType` of the field's type — an external collaborator
per the spec). Field values are drawn from a single type `V`; heterogeneous
structs are recovered by instantiating `V` with a sum type. -/

/-- Result of a field codec's `read`: `Ok(Option<V>)` with the remaining
stream, or a decode error (stream position after an error is indeterminate
per the spec; we record where the codec stopped). -/
inductive CodecRes (V : Type) where
  | ok : Option V → List Nat → CodecRes V
  | err : String → List Nat → CodecRes V
deriving DecidableEq

/-- The value-codec capability required of each field type (spec §6):
`write`, `size`, `read`. -/
structure FieldCodec (V : Type) where
  write : V → List Nat
  size : V → Nat
  read : List Nat → CodecRes V

/-- A named field of a derived struct, with its value codec. -/
structure Field (V : Type) where
  name : String
  codec : FieldCodec V

/-- A derived struct type: its name, the optional explicit `type_id`
attribute override, and its ordered fields. -/
structure TypeDescriptor (V : Type) where
  name : String
  typeIdOverride : Option Int := none
  fields : List (Field V)

/-- `get_type_id` (lib.rs:45-63): the explicit `type_id` attribute if present
(parsed as `i32`, hence wrapped into signed range), else
`string_to_java_hashcode` of the type name. -/
def get_type_id (td : TypeDescriptor V) : Int :=
  match td.typeIdOverride with
  | some v => toSigned32 v
  | none => string_to_java_hashcode td.name

/-- `get_schema_id` (lib.rs:190-209): fold the FNV1 step over the
`string_to_java_hashcode` of each field name, in declaration order, starting
from the offset basis; the result is the final accumulator read back as an
`i32`. -/
def get_schema_id (fields : List (Field V)) : Int :=
  let acc : Nat :=
    (fields.map (fun f => string_to_java_hashcode f.name)).foldl
      (fun acc hash => fnv1Step acc (bits32 hash)) FNV1_OFFSET_BASIS
  toSigned32 acc

/-! ## Protocol constants and helpers

These live in the `ignite_rs` crate, outside `src/`; they are modelled from
the spec (§3, §6). -/

/-- Modelled from the spec: wire type codes (`ignite_rs::protocol::TypeCode`).
The spec names the null sentinel and the complex-object code; the remaining
constructors stand for the other primitive wire codes. -/
inductive TypeCode where
  | Null
  | Bool
  | Byte
  | Short
  | Int
  | Long
  | String
  | ComplexObj
deriving DecidableEq

/-- Modelled from the spec: the one-byte wire value of a type code (spec §6:
"constant value identifying complex object"). Only the complex-object value
is material to the claims. -/
def TypeCode.code : TypeCode → Nat
  | .Null => 101
  | .Bool => 8
  | .Byte => 1
  | .Short => 2
  | .Int => 3
  | .Long => 4
  | .String => 9
  | .ComplexObj => 103

/-- Modelled from the spec: complex-object header length (spec §6 table: the
header spans offsets 0-23). -/
def COMPLEX_OBJ_HEADER_LEN : Nat := 24

/-- Modelled from the spec: flags bit 1 = UserType. -/
def FLAG_USER_TYPE : Nat := 1

/-- Modelled from the spec: flags bit 2 = HasSchema. -/
def FLAG_HAS_SCHEMA : Nat := 2

/-- Modelled from the spec: flags bit 3 = CompactFooter (unsupported). -/
def FLAG_COMPACT_FOOTER : Nat := 4

/-- Modelled from the spec: flags bit 4 = OffsetOneByte (unsupported). -/
def FLAG_OFFSET_ONE_BYTE : Nat := 8

/-- Modelled from the spec: flags bit 5 = OffsetTwoBytes (unsupported). -/
def FLAG_OFFSET_TWO_BYTES : Nat := 16

/-- Modelled from the spec: `ignite_rs::utils::bytes_to_java_hashcode`, the
byte-sequence hash (spec §4.2): same polynomial family as the string hash,
folded over the bytes with 32-bit wrapping. Its exact constants are the
protocol's; no claim depends on them. -/
def bytes_to_java_hashcode (bytes : List Nat) : Int :=
  bytes.foldl (fun hash b => toSigned32 (toSigned32 (31 * hash) + (b : Int))) 0

/-! ## Generated encoder (`impl_write_type`, lib.rs:66-117) -/

/-- The per-field loop of the generated `write` (lib.rs:69-76, expanded at
lib.rs:98): for each field in declaration order, append its FieldIdentifier
(`string_to_java_hashcode` of the name) and its FieldOffset
(`COMPLEX_OBJ_HEADER_LEN + fields.len()` — the payload bytes written so far)
to the schema buffer, then append the field's own encoding to the field
buffer. Returns (field-payload buffer, schema buffer). -/
def buildBuffersGo : List (Field V × V) → List Nat → List Nat → List Nat × List Nat
  | [], fields, schema => (fields, schema)
  | fv :: rest, fields, schema =>
    buildBuffersGo rest (fields ++ fv.1.codec.write fv.2)
      (schema ++ i32le (string_to_java_hashcode fv.1.name)
              ++ i32le ((COMPLEX_OBJ_HEADER_LEN : Int) + fields.length))

/-- The generated `write` runs `buildBuffersGo` starting from two empty
buffers (lib.rs:94-98). -/
def buildBuffers (fvs : List (Field V × V)) : List Nat × List Nat :=
  buildBuffersGo fvs [] []

/-- The generated `write` (lib.rs:87-107): type code, version 1, flags
`USER_TYPE|HAS_SCHEMA`, type id, then — after materializing the field and
schema buffers — object hash over the field buffer, total length, schema id,
schema offset, the field buffer and the schema buffer. -/
def write (td : TypeDescriptor V) (vals : List V) : List Nat :=
  let bufs := buildBuffers (td.fields.zip vals)
  TypeCode.ComplexObj.code :: 1 :: u16le (FLAG_USER_TYPE ||| FLAG_HAS_SCHEMA)
    ++ i32le (get_type_id td)
    ++ i32le (bytes_to_java_hashcode bufs.1)
    ++ i32le ((COMPLEX_OBJ_HEADER_LEN : Int) + bufs.1.length + bufs.2.length)
    ++ i32le (get_schema_id td.fields)
    ++ i32le ((COMPLEX_OBJ_HEADER_LEN : Int) + bufs.1.length)
    ++ bufs.1 ++ bufs.2

/-- The generated `size` (lib.rs:109-114): the header constant plus, per
field, the field codec's reported size plus 4 (FieldIdentifier) plus 4
(FieldOffset). -/
def size (td : TypeDescriptor V) (vals : List V) : Nat :=
  (td.fields.zip vals).foldl
    (fun acc fv => acc + (fv.1.codec.size fv.2 + 4 + 4)) COMPLEX_OBJ_HEADER_LEN

/-! ## Generated decoder (`impl_read_type`, lib.rs:120-187) -/

/-- Modelled from the spec: the message of the I/O failure a protocol read
helper raises on a truncated stream (spec §7, IoFailure propagated verbatim).
The exact text is the underlying library's; no claim depends on it. -/
def EOF_MSG : String := "failed to fill whole buffer"

/-- `ignite_rs::protocol::read_u8`, modelled from the spec: one byte. -/
def readU8 : List Nat → Option (Nat × List Nat)
  | [] => none
  | b :: r => some (b, r)

/-- `ignite_rs::protocol::read_u16`, modelled from the spec: two bytes,
little-endian. -/
def readU16 : List Nat → Option (Nat × List Nat)
  | b0 :: b1 :: r => some (b0 + 256 * b1, r)
  | _ => none

/-- `ignite_rs::protocol::read_i32`, modelled from the spec: four bytes,
little-endian, interpreted as signed. -/
def readI32 : List Nat → Option (Int × List Nat)
  | b0 :: b1 :: b2 :: b3 :: r =>
    some (toSigned32 ((b0 + 256 * b1 + 65536 * b2 + 16777216 * b3 : Nat) : Int), r)
  | _ => none

/-- Consume `k` bytes (used for `read_i64` whose value is discarded,
lib.rs:173). -/
def skipN (k : Nat) (s : List Nat) : Option (List Nat) :=
  if k ≤ s.length then some (s.drop k) else none

/-- The type-mismatch error message (lib.rs:160): it names both the expected
and the received identifier. -/
def typeMismatchMsg (expected received : Int) : String :=
  "Type ID mismatch: expected " ++ toString expected ++ ", got " ++ toString received

/-- Outcome of a decode call. `ok` carries the decoded value (`none` is the
protocol null) and the unread remainder of the stream; `err` carries the
`IgniteError` message and the remainder at the point of failure; `panicked`
is a Rust panic — the call never returns a value or an error to the caller
(the `.unwrap()` at lib.rs:128). -/
inductive Out (V : Type) where
  | ok : Option (List V) → List Nat → Out V
  | err : String → List Nat → Out V
  | panicked : List Nat → Out V
deriving DecidableEq

/-- Whether an outcome is an error result returned to the caller. -/
def Out.isErr : Out V → Bool
  | .err _ _ => true
  | _ => false

/-- Outcome of the field-reading loop. -/
inductive FOut (V : Type) where
  | ok : List V → List Nat → FOut V
  | err : String → List Nat → FOut V
  | panicked : List Nat → FOut V
deriving DecidableEq

/-- The generated per-field reads (lib.rs:123-130, expanded at lib.rs:169):
for each field in declaration order, `<ty>::read(reader)?.unwrap()` — a codec
error propagates with `?`, and a decoded `None` makes `.unwrap()` panic. -/
def fieldsRead : List (Field V) → List Nat → FOut V
  | [], s => .ok [] s
  | f :: fs, s =>
    match f.codec.read s with
    | .err e s1 => .err e s1
    | .ok none s1 => .panicked s1
    | .ok (some v) s1 =>
      match fieldsRead fs s1 with
      | .ok vs s2 => .ok (v :: vs) s2
      | .err e s2 => .err e s2
      | .panicked s2 => .panicked s2

/-- The schema-skipping loop (lib.rs:172-174): `fields_count` discarded
`read_i64` calls, 8 bytes each. -/
def readSchemaSkip : Nat → List Nat → Option (List Nat)
  | 0, s => some s
  | n + 1, s =>
    match skipN 8 s with
    | none => none
    | some s1 => readSchemaSkip n s1

/-- The tail of the generated decoder after the TypeIdentifier check passed
(lib.rs:164-180): discard ObjectHashCode, TotalLength, SchemaIdentifier and
SchemaOffset, read the fields in declaration order, then skip the schema
footer. -/
def decodeAfterId (td : TypeDescriptor V) (s : List Nat) : Out V :=
  match readI32 s with
  | none => .err EOF_MSG s
  | some (_, s1) =>
    match readI32 s1 with
    | none => .err EOF_MSG s1
    | some (_, s2) =>
      match readI32 s2 with
      | none => .err EOF_MSG s2
      | some (_, s3) =>
        match readI32 s3 with
        | none => .err EOF_MSG s3
        | some (_, s4) =>
          match fieldsRead td.fields s4 with
          | .err e s5 => .err e s5
          | .panicked s5 => .panicked s5
          | .ok vs s5 =>
            match readSchemaSkip td.fields.length s5 with
            | none => .err EOF_MSG s5
            | some s6 => .ok (some vs) s6

/-- The decoder after the flag checks passed (lib.rs:157-162): read the
TypeIdentifier and fail with the type-mismatch error when it differs from
the descriptor's resolved identifier. -/
def decodeAfterFlags (td : TypeDescriptor V) (s : List Nat) : Out V :=
  match readI32 s with
  | none => .err EOF_MSG s
  | some (received, s1) =>
    if received = get_type_id td then decodeAfterId td s1
    else .err (typeMismatchMsg (get_type_id td) received) s1

/-- The non-null branch of the generated `read_unwrapped` (lib.rs:143-181):
discard the version byte, read the flags, apply the three ordered flag
checks, then proceed to the TypeIdentifier check. -/
def readNonNull (td : TypeDescriptor V) (s : List Nat) : Out V :=
  match readU8 s with
  | none => .err EOF_MSG s
  | some (_, s1) =>
    match readU16 s1 with
    | none => .err EOF_MSG s1
    | some (flags, s2) =>
      if flags &&& FLAG_HAS_SCHEMA = 0 then
        .err "Serialized object schema expected!" s2
      else if flags &&& FLAG_COMPACT_FOOTER ≠ 0 then
        .err "Compact footer is not supported!" s2
      else if flags &&& FLAG_OFFSET_ONE_BYTE ≠ 0 ∨ flags &&& FLAG_OFFSET_TWO_BYTES ≠ 0 then
        .err "Schema offset=4 is expected!" s2
      else decodeAfterFlags td s2

/-- The generated `read_unwrapped` (lib.rs:140-184): `TypeCode::Null` yields
`Ok(None)` immediately; every other type code takes the same non-null
branch. -/
def read_unwrapped (td : TypeDescriptor V) (tc : TypeCode) (s : List Nat) : Out V :=
  match tc with
  | .Null => .ok none s
  | _ => readNonNull td s

/-! ## Closed forms used to state the claims -/

/-- Closed form of the field-payload buffer: the concatenation of the field
encodings in declaration order. -/
def fieldPayload (fvs : List (Field V × V)) : List Nat :=
  (fvs.map (fun fv => fv.1.codec.write fv.2)).flatten

/-- Closed form of the schema buffer built starting from `off` payload bytes
already written: per field, its FieldIdentifier then its FieldOffset. -/
def schemaFooterFrom (off : Nat) : List (Field V × V) → List Nat
  | [] => []
  | fv :: rest =>
    i32le (string_to_java_hashcode fv.1.name)
      ++ i32le ((COMPLEX_OBJ_HEADER_LEN : Int) + off)
      ++ schemaFooterFrom (off + (fv.1.codec.write fv.2).length) rest

/-- The total encoded size of the first `k` fields' payloads. -/
def sizesBefore (fvs : List (Field V × V)) (k : Nat) : Nat :=
  ((fvs.take k).map (fun fv => (fv.1.codec.write fv.2).length)).sum

/-- Restated from the claim's words (for comparison with `get_schema_id`):
the fold starting at offset basis `0x811C9DC5` where, for each StringHash
value in order, its four bytes least-significant first are each processed as
`acc := (acc XOR byte) * 0x01000193` with wrapping 32-bit multiply. -/
def schemaIdSpecFold (hashes : List Int) : Nat :=
  hashes.foldl
    (fun acc h =>
      [bits32 h % 256, bits32 h / 256 % 256, bits32 h / 65536 % 256, bits32 h / 16777216 % 256].foldl
        (fun a byte => (a ^^^ byte) * 0x01000193 % 4294967296) acc)
    0x811C9DC5

/-! ## Concrete material for witnesses and counterexamples -/

/-- A byte-valued field codec satisfying the value-codec capability: writes
the byte, reads it back. -/
def fin256Codec : FieldCodec (Fin 256) where
  write := fun v => [v.val]
  size := fun _ => 1
  read := fun s =>
    match s with
    | [] => CodecRes.err EOF_MSG []
    | b :: r => CodecRes.ok (some ⟨b % 256, Nat.mod_lt b (by omega)⟩) r

/-- A concrete two-field descriptor over byte values. -/
def exTd2 : TypeDescriptor (Fin 256) where
  name := "T"
  fields := [{ name := "id", codec := fin256Codec }, { name := "name", codec := fin256Codec }]

/-- A concrete single-field descriptor over `Nat` values. -/
def exTd : TypeDescriptor Nat where
  name := "T"
  fields := [{ name := "id", codec :=
    { write := fun v => [v % 256], size := fun _ => 1,
      read := fun s =>
        match s with
        | [] => CodecRes.err EOF_MSG []
        | b :: r => CodecRes.ok (some b) r } }]

/-- A field codec whose `read` reports a decoded `None` (an absent value)
without consuming bytes. -/
def absentCodec : FieldCodec Nat where
  write := fun _ => []
  size := fun _ => 0
  read := fun s => CodecRes.ok none s

/-- A single-field descriptor whose field decodes as absent. -/
def absentTd : TypeDescriptor Nat where
  name := "T"
  fields := [{ name := "id", codec := absentCodec }]

/-! ## Numeric lemmas -/

theorem toSigned32_range (x : Int) :
    -2147483648 ≤ toSigned32 x ∧ toSigned32 x < 2147483648 := by
  unfold toSigned32
  omega

theorem toSigned32_idem (x : Int) : toSigned32 (toSigned32 x) = toSigned32 x := by
  unfold toSigned32
  omega

theorem toSigned32_eq_self (x : Int) (h1 : -2147483648 ≤ x) (h2 : x < 2147483648) :
    toSigned32 x = x := by
  unfold toSigned32
  omega

theorem toSigned32_add_left (a b : Int) :
    toSigned32 (toSigned32 a + b) = toSigned32 (a + b) := by
  unfold toSigned32
  omega

theorem i32le_length (x : Int) : (i32le x).length = 4 := rfl

theorem bits32_lt (x : Int) : bits32 x < 4294967296 := by
  unfold bits32
  omega

theorem byteAt_recompose (m : Nat) (h : m < 4294967296) :
    byteAt m 0 + 256 * byteAt m 1 + 65536 * byteAt m 2 + 16777216 * byteAt m 3 = m := by
  unfold byteAt
  simp only [pow_zero, pow_one, Nat.div_one]
  omega

theorem toSigned32_bits32 (x : Int) : toSigned32 (bits32 x) = toSigned32 x := by
  unfold toSigned32 bits32
  omega

theorem string_to_java_hashcode_fixed (s : String) :
    toSigned32 (string_to_java_hashcode s) = string_to_java_hashcode s := by
  unfold string_to_java_hashcode
  have key : ∀ (l : List Char) (h : Int), toSigned32 h = h →
      toSigned32 (l.foldl (fun hash c => toSigned32 (toSigned32 (31 * hash) + (c.toNat : Int))) h) =
        l.foldl (fun hash c => toSigned32 (toSigned32 (31 * hash) + (c.toNat : Int))) h := by
    intro l
    induction l with
    | nil => intro h hh; simpa using hh
    | cons c cs ih =>
      intro h _
      exact ih _ (toSigned32_idem _)
  exact key s.data 0 (by unfold toSigned32; omega)

theorem get_type_id_fixed (td : TypeDescriptor V) :
    toSigned32 (get_type_id td) = get_type_id td := by
  unfold get_type_id
  cases td.typeIdOverride with
  | none => exact string_to_java_hashcode_fixed td.name
  | some v => exact toSigned32_idem v

/-! ## Stream-reading lemmas -/

theorem readI32_i32le (x : Int) (r : List Nat) :
    readI32 (i32le x ++ r) = some (toSigned32 x, r) := by
  simp only [i32le, List.cons_append, List.nil_append, readI32]
  rw [byteAt_recompose (bits32 x) (bits32_lt x)]
  rw [show ((bits32 x : Nat) : Int) = bits32 x from rfl, toSigned32_bits32]

theorem skipN_exact (k : Nat) (l r : List Nat) (hl : l.length = k) :
    skipN k (l ++ r) = some r := by
  unfold skipN
  rw [if_pos (by simp [hl])]
  rw [List.drop_left' hl]

/-! ## Encoder-buffer lemmas -/

theorem buildBuffersGo_spec (fvs : List (Field V × V)) (fb sb : List Nat) :
    buildBuffersGo fvs fb sb = (fb ++ fieldPayload fvs, sb ++ schemaFooterFrom fb.length fvs) := by
  induction fvs generalizing fb sb with
  | nil => simp [buildBuffersGo, fieldPayload, schemaFooterFrom]
  | cons fv rest ih =>
    simp only [buildBuffersGo, fieldPayload, List.map_cons, List.flatten_cons, schemaFooterFrom]
    rw [ih]
    simp [fieldPayload, List.append_assoc, Nat.add_comm]

theorem buildBuffers_spec (fvs : List (Field V × V)) :
    buildBuffers fvs = (fieldPayload fvs, schemaFooterFrom 0 fvs) := by
  unfold buildBuffers
  rw [buildBuffersGo_spec]
  simp

theorem fieldPayload_length (fvs : List (Field V × V)) :
    (fieldPayload fvs).length = (fvs.map (fun fv => (fv.1.codec.write fv.2).length)).sum := by
  simp only [fieldPayload, List.length_flatten, List.map_map, Function.comp_def]

theorem schemaFooterFrom_length (off : Nat) (fvs : List (Field V × V)) :
    (schemaFooterFrom off fvs).length = 8 * fvs.length := by
  induction fvs generalizing off with
  | nil => simp [schemaFooterFrom]
  | cons fv rest ih =>
    simp [schemaFooterFrom, ih, i32le]
    omega

/-! ## Decoder-path lemmas -/

theorem read_unwrapped_ne_null (td : TypeDescriptor V) (tc : TypeCode) (s : List Nat)
    (htc : tc ≠ TypeCode.Null) : read_unwrapped td tc s = readNonNull td s := by
  cases tc with
  | Null => exact absurd rfl htc
  | _ => rfl

theorem fieldsRead_payload (fs : List (Field V)) (vs : List V)
    (hlen : vs.length = fs.length)
    (hinv : ∀ f ∈ fs, ∀ (v : V) (s : List Nat),
      f.codec.read (f.codec.write v ++ s) = CodecRes.ok (some v) s)
    (r : List Nat) :
    fieldsRead fs (fieldPayload (fs.zip vs) ++ r) = FOut.ok vs r := by
  induction fs generalizing vs r with
  | nil =>
    cases vs with
    | nil => simp [fieldsRead, fieldPayload]
    | cons v vs => simp at hlen
  | cons f fs ih =>
    cases vs with
    | nil => simp at hlen
    | cons v vs =>
      have hpay : fieldPayload ((f :: fs).zip (v :: vs)) ++ r =
          f.codec.write v ++ (fieldPayload (fs.zip vs) ++ r) := by
        simp [fieldPayload, List.append_assoc]
      rw [hpay]
      show fieldsRead (f :: fs) _ = _
      unfold fieldsRead
      rw [hinv f (by simp) v (fieldPayload (fs.zip vs) ++ r)]
      dsimp only
      rw [ih vs (by simpa using hlen) (fun g hg => hinv g (by simp [hg])) r]

theorem readSchemaSkip_exact (n : Nat) (l r : List Nat) (hl : l.length = 8 * n) :
    readSchemaSkip n (l ++ r) = some r := by
  induction n generalizing l with
  | zero =>
    have : l = [] := List.length_eq_zero.mp (by omega)
    subst this
    simp [readSchemaSkip]
  | succ n ih =>
    unfold readSchemaSkip
    have h8 : 8 ≤ l.length := by omega
    have hsplit : l ++ r = l.take 8 ++ (l.drop 8 ++ r) := by
      rw [← List.append_assoc, List.take_append_drop]
    rw [hsplit, skipN_exact 8 _ _ (by simp [List.length_take]; omega)]
    exact ih (l.drop 8) (by simp [List.length_drop]; omega)

theorem decodeAfterId_ok (td : TypeDescriptor V) (vals : List V)
    (hlen : vals.length = td.fields.length)
    (hinv : ∀ f ∈ td.fields, ∀ (v : V) (s : List Nat),
      f.codec.read (f.codec.write v ++ s) = CodecRes.ok (some v) s)
    (a b c d : Int) (r : List Nat) :
    decodeAfterId td
      (i32le a ++ (i32le b ++ (i32le c ++ (i32le d
        ++ (fieldPayload (td.fields.zip vals) ++ (schemaFooterFrom 0 (td.fields.zip vals) ++ r)))))) =
      Out.ok (some vals) r := by
  unfold decodeAfterId
  simp only [List.append_assoc, readI32_i32le]
  rw [fieldsRead_payload td.fields vals hlen hinv (schemaFooterFrom 0 (td.fields.zip vals) ++ r)]
  dsimp only
  rw [readSchemaSkip_exact td.fields.length _ r
    (by rw [schemaFooterFrom_length]; rw [List.length_zip]; omega)]

theorem readNonNull_header (td : TypeDescriptor V) (rest : List Nat) :
    readNonNull td (1 :: 3 :: 0 :: rest) = decodeAfterFlags td rest := by
  simp [readNonNull, readU8, readU16, FLAG_HAS_SCHEMA, FLAG_COMPACT_FOOTER,
    FLAG_OFFSET_ONE_BYTE, FLAG_OFFSET_TWO_BYTES]
  rw [if_pos (by decide), if_neg (by decide)]

theorem decodeAfterFlags_id (td : TypeDescriptor V) (rest : List Nat) :
    decodeAfterFlags td (i32le (get_type_id td) ++ rest) = decodeAfterId td rest := by
  unfold decodeAfterFlags
  rw [readI32_i32le]
  dsimp only
  rw [get_type_id_fixed td]
  simp

theorem write_drop_one (td : TypeDescriptor V) (vals : List V) :
    (write td vals).drop 1 =
      1 :: 3 :: 0 ::
        (i32le (get_type_id td)
          ++ (i32le (bytes_to_java_hashcode (fieldPayload (td.fields.zip vals)))
          ++ (i32le ((COMPLEX_OBJ_HEADER_LEN : Int) + (fieldPayload (td.fields.zip vals)).length
                + (schemaFooterFrom 0 (td.fields.zip vals)).length)
          ++ (i32le (get_schema_id td.fields)
          ++ (i32le ((COMPLEX_OBJ_HEADER_LEN : Int) + (fieldPayload (td.fields.zip vals)).length)
          ++ (fieldPayload (td.fields.zip vals)
          ++ (schemaFooterFrom 0 (td.fields.zip vals) ++ []))))))) := by
  simp [write, buildBuffers_spec, u16le, FLAG_USER_TYPE, FLAG_HAS_SCHEMA]

theorem fin256Codec_inverts (v : Fin 256) (s : List Nat) :
    fin256Codec.read (fin256Codec.write v ++ s) = CodecRes.ok (some v) s := by
  show CodecRes.ok (some (⟨v.val % 256, _⟩ : Fin 256)) s = CodecRes.ok (some v) s
  congr 1
  exact congrArg some (Fin.ext (Nat.mod_eq_of_lt v.isLt))

/-! ## Claim theorems -/

/-- Claim C1: for every derived type descriptor and every instance whose
field codecs invert their own writes (`read (write v ++ s) = Ok(Some v)`
leaving `s`), decoding the bytes produced by the generated `write` with the
generated `read_unwrapped` under any non-null type code succeeds and returns
`Some` of the original instance, field by field, consuming the whole
stream. (The leading byte of `write`'s output is the type-code byte, which
the surrounding dispatcher consumes before `read_unwrapped` runs, hence the
`drop 1`.) -/
theorem c1_decode_inverts_encode (td : TypeDescriptor V) (vals : List V) (tc : TypeCode)
    (hlen : vals.length = td.fields.length)
    (hinv : ∀ f ∈ td.fields, ∀ (v : V) (s : List Nat),
      f.codec.read (f.codec.write v ++ s) = CodecRes.ok (some v) s)
    (htc : tc ≠ TypeCode.Null) :
    read_unwrapped td tc ((write td vals).drop 1) = Out.ok (some vals) [] := by
  rw [read_unwrapped_ne_null td tc _ htc, write_drop_one, readNonNull_header,
    decodeAfterFlags_id, decodeAfterId_ok td vals hlen hinv]

/-- Witness for C1: decoding the encoding of the concrete two-byte-field
instance `[7, 9]` of `exTd2` returns it intact. -/
theorem c1_witness :
    read_unwrapped exTd2 TypeCode.ComplexObj ((write exTd2 [(7 : Fin 256), 9]).drop 1) =
      Out.ok (some [(7 : Fin 256), 9]) [] := by
  refine c1_decode_inverts_encode exTd2 [(7 : Fin 256), 9] TypeCode.ComplexObj rfl ?_ (by decide)
  intro f hf v s
  simp only [exTd2, List.mem_cons, List.not_mem_nil, or_false] at hf
  rcases hf with hf | hf
  · rw [hf]; exact fin256Codec_inverts v s
  · rw [hf]; exact fin256Codec_inverts v s

theorem size_spec (td : TypeDescriptor V) (vals : List V) :
    size td vals =
      COMPLEX_OBJ_HEADER_LEN
        + ((td.fields.zip vals).map (fun fv => fv.1.codec.size fv.2 + 8)).sum := by
  unfold size
  have key : ∀ (l : List (Field V × V)) (init : Nat),
      l.foldl (fun acc fv => acc + (fv.1.codec.size fv.2 + 4 + 4)) init =
        init + (l.map (fun fv => fv.1.codec.size fv.2 + 8)).sum := by
    intro l
    induction l with
    | nil => intro init; simp
    | cons a l ih =>
      intro init
      simp only [List.foldl_cons, List.map_cons, List.sum_cons, ih]
      omega
  exact key _ _

theorem write_length (td : TypeDescriptor V) (vals : List V) :
    (write td vals).length =
      COMPLEX_OBJ_HEADER_LEN + (fieldPayload (td.fields.zip vals)).length
        + 8 * (td.fields.zip vals).length := by
  simp [write, buildBuffers_spec, u16le, i32le, schemaFooterFrom_length, COMPLEX_OBJ_HEADER_LEN]
  omega

/-- Claim C2: assuming each field codec's `size()` equals the number of bytes
its `write()` emits, the generated `size()` (header constant plus, per field,
the field's reported size plus 8) equals the number of bytes the generated
`write()` emits (header + field payload + schema footer). -/
theorem c2_size_eq_write_length (td : TypeDescriptor V) (vals : List V)
    (hsz : ∀ fv ∈ td.fields.zip vals,
      fv.1.codec.size fv.2 = (fv.1.codec.write fv.2).length) :
    size td vals = (write td vals).length := by
  rw [size_spec, write_length, fieldPayload_length]
  have hmap : (td.fields.zip vals).map (fun fv => fv.1.codec.size fv.2 + 8) =
      (td.fields.zip vals).map (fun fv => (fv.1.codec.write fv.2).length + 8) :=
    List.map_congr_left (fun fv hfv => by rw [hsz fv hfv])
  rw [hmap]
  have hsum : ∀ (l : List (Field V × V)),
      (l.map (fun fv => (fv.1.codec.write fv.2).length + 8)).sum =
        (l.map (fun fv => (fv.1.codec.write fv.2).length)).sum + 8 * l.length := by
    intro l
    induction l with
    | nil => simp
    | cons a l ih =>
      simp only [List.map_cons, List.sum_cons, List.length_cons, ih]
      omega
  rw [hsum]
  omega

/-- Witness for C2: the generated `size` of the concrete instance `[7, 9]`
of `exTd2` equals the length of its encoding (both are 42). -/
theorem c2_witness : size exTd2 [(7 : Fin 256), 9] = (write exTd2 [(7 : Fin 256), 9]).length := by
  refine c2_size_eq_write_length exTd2 [(7 : Fin 256), 9] ?_
  intro fv hfv
  simp only [exTd2, List.zip_cons_cons, List.zip_nil_right, List.mem_cons,
    List.not_mem_nil, or_false] at hfv
  rcases hfv with hfv | hfv
  · rw [hfv]; rfl
  · rw [hfv]; rfl

theorem char_toNat_lt (c : Char) : c.toNat < 1114112 := by
  have h := c.valid
  unfold UInt32.isValidChar Nat.isValidChar at h
  rcases h with h | ⟨h1, h2⟩
  · show c.val.toNat < 1114112
    omega
  · show c.val.toNat < 1114112
    omega

/-- Claim C3: for every ordered field list, `get_schema_id` equals the fold
starting at offset basis `0x811C9DC5` (read back as signed 32-bit at the
end) in which, for each field name's StringHash value in declaration order,
its four bytes least-significant first are each processed as
`acc := (acc XOR byte) * 0x01000193` with wrapping 32-bit multiply; and two
field lists with identical name sequences — even over different value
types — get identical SchemaIdentifiers. -/
theorem c3_schema_id (fs1 : List (Field V₁)) (fs2 : List (Field V₂)) :
    get_schema_id fs1 =
      toSigned32 (schemaIdSpecFold (fs1.map (fun f => string_to_java_hashcode f.name))) ∧
    (fs1.map (fun f => f.name) = fs2.map (fun f => f.name) →
      get_schema_id fs1 = get_schema_id fs2) := by
  constructor
  · simp only [get_schema_id, schemaIdSpecFold, FNV1_OFFSET_BASIS]
    refine congrArg (fun n : Nat => toSigned32 (n : Int)) ?_
    apply List.foldl_ext
    intro acc h _
    simp [fnv1Step, byteAt, FNV1_PRIME]
  · intro h
    simp only [get_schema_id]
    have hh : fs1.map (fun f => string_to_java_hashcode f.name) =
        fs2.map (fun f => string_to_java_hashcode f.name) := by
      rw [show (fun (f : Field V₁) => string_to_java_hashcode f.name) =
            string_to_java_hashcode ∘ (fun f => f.name) from rfl,
          show (fun (f : Field V₂) => string_to_java_hashcode f.name) =
            string_to_java_hashcode ∘ (fun f => f.name) from rfl,
          ← List.map_map, ← List.map_map, h]
    rw [hh]

/-- Witness for C3: a `Nat`-valued and a `Fin 256`-valued descriptor sharing
the single field name "id" get the same SchemaIdentifier. -/
theorem c3_witness :
    get_schema_id exTd.fields = get_schema_id [({ name := "id", codec := fin256Codec } : Field (Fin 256))] :=
  (c3_schema_id exTd.fields [{ name := "id", codec := fin256Codec }]).2 rfl

/-- Claim C4: the string hash starts at 0 and, for each character in order,
sets `hash := hash * 31 + codepoint` with 32-bit two's-complement wrapping at
every step (the source wraps the multiply explicitly and the addition by
release-mode semantics; a single wrap of the whole step is equivalent); the
hash of `""` is 0 and the hash of a two-character string with codepoints
`c1, c2` is `31*c1 + c2` under 32-bit wrapping. -/
theorem c4_string_hash :
    (∀ s : String, string_to_java_hashcode s =
      s.data.foldl (fun hash c => toSigned32 (31 * hash + (c.toNat : Int))) 0) ∧
    string_to_java_hashcode "" = 0 ∧
    (∀ c1 c2 : Char, string_to_java_hashcode (String.mk [c1, c2]) =
      toSigned32 (31 * (c1.toNat : Int) + (c2.toNat : Int))) := by
  refine ⟨?_, rfl, ?_⟩
  · intro s
    unfold string_to_java_hashcode
    apply List.foldl_ext
    intro h c _
    exact toSigned32_add_left (31 * h) (c.toNat : Int)
  · intro c1 c2
    have h1 : c1.toNat < 1114112 := char_toNat_lt c1
    unfold string_to_java_hashcode
    rw [show (String.mk [c1, c2]).data = [c1, c2] from rfl]
    rw [List.foldl_cons, List.foldl_cons, List.foldl_nil]
    rw [show toSigned32 (31 * (0 : Int)) = 0 from rfl, zero_add,
      toSigned32_eq_self (c1.toNat : Int) (by omega) (by omega),
      toSigned32_add_left]

theorem write_decomp (td : TypeDescriptor V) (vals : List V) :
    write td vals =
      (TypeCode.ComplexObj.code :: 1 :: 3 :: 0 ::
          (i32le (get_type_id td)
            ++ i32le (bytes_to_java_hashcode (fieldPayload (td.fields.zip vals)))
            ++ i32le ((COMPLEX_OBJ_HEADER_LEN : Int) + (fieldPayload (td.fields.zip vals)).length
                + (schemaFooterFrom 0 (td.fields.zip vals)).length)
            ++ i32le (get_schema_id td.fields)
            ++ i32le ((COMPLEX_OBJ_HEADER_LEN : Int) + (fieldPayload (td.fields.zip vals)).length)))
        ++ fieldPayload (td.fields.zip vals)
        ++ schemaFooterFrom 0 (td.fields.zip vals) := by
  simp [write, buildBuffers_spec, u16le, FLAG_USER_TYPE, FLAG_HAS_SCHEMA]

theorem write_header_length (td : TypeDescriptor V) (vals : List V) :
    (TypeCode.ComplexObj.code :: 1 :: 3 :: 0 ::
        (i32le (get_type_id td)
          ++ i32le (bytes_to_java_hashcode (fieldPayload (td.fields.zip vals)))
          ++ i32le ((COMPLEX_OBJ_HEADER_LEN : Int) + (fieldPayload (td.fields.zip vals)).length
              + (schemaFooterFrom 0 (td.fields.zip vals)).length)
          ++ i32le (get_schema_id td.fields)
          ++ i32le ((COMPLEX_OBJ_HEADER_LEN : Int) + (fieldPayload (td.fields.zip vals)).length))).length
      = COMPLEX_OBJ_HEADER_LEN := by
  simp [i32le, COMPLEX_OBJ_HEADER_LEN]

/-- Claim C5: the encoder's output is the 24-byte header, then the field
payload, then the schema footer, where the header carries the
ObjectHashCode computed by the byte-sequence hash over exactly the
field-payload bytes (not the schema bytes), the TotalLength
`header + payload + schema`, and the SchemaOffset `header + payload`. -/
theorem c5_header_layout (td : TypeDescriptor V) (vals : List V) :
    write td vals =
      (TypeCode.ComplexObj.code :: 1 :: 3 :: 0 ::
          (i32le (get_type_id td)
            ++ i32le (bytes_to_java_hashcode (fieldPayload (td.fields.zip vals)))
            ++ i32le ((COMPLEX_OBJ_HEADER_LEN : Int) + (fieldPayload (td.fields.zip vals)).length
                + (schemaFooterFrom 0 (td.fields.zip vals)).length)
            ++ i32le (get_schema_id td.fields)
            ++ i32le ((COMPLEX_OBJ_HEADER_LEN : Int) + (fieldPayload (td.fields.zip vals)).length)))
        ++ fieldPayload (td.fields.zip vals)
        ++ schemaFooterFrom 0 (td.fields.zip vals) ∧
    (TypeCode.ComplexObj.code :: 1 :: 3 :: 0 ::
        (i32le (get_type_id td)
          ++ i32le (bytes_to_java_hashcode (fieldPayload (td.fields.zip vals)))
          ++ i32le ((COMPLEX_OBJ_HEADER_LEN : Int) + (fieldPayload (td.fields.zip vals)).length
              + (schemaFooterFrom 0 (td.fields.zip vals)).length)
          ++ i32le (get_schema_id td.fields)
          ++ i32le ((COMPLEX_OBJ_HEADER_LEN : Int) + (fieldPayload (td.fields.zip vals)).length))).length
      = COMPLEX_OBJ_HEADER_LEN :=
  ⟨write_decomp td vals, write_header_length td vals⟩

theorem schemaFooterFrom_entry (fvs : List (Field V × V)) (off k : Nat) (hk : k < fvs.length) :
    ((schemaFooterFrom off fvs).drop (8 * k)).take 8 =
      i32le (string_to_java_hashcode (fvs.get ⟨k, hk⟩).1.name)
        ++ i32le ((COMPLEX_OBJ_HEADER_LEN : Int) + off + sizesBefore fvs k) := by
  induction fvs generalizing off k with
  | nil => cases hk
  | cons fv rest ih =>
    have hsplit : schemaFooterFrom off (fv :: rest) =
        (i32le (string_to_java_hashcode fv.1.name)
          ++ i32le ((COMPLEX_OBJ_HEADER_LEN : Int) + off))
          ++ schemaFooterFrom (off + (fv.1.codec.write fv.2).length) rest := by
      simp [schemaFooterFrom, List.append_assoc]
    cases k with
    | zero =>
      rw [Nat.mul_zero, List.drop_zero, hsplit, List.take_left' (by simp [i32le])]
      simp [sizesBefore]
    | succ k =>
      rw [hsplit, Nat.mul_succ, Nat.add_comm (8 * k) 8]
      rw [show 8 + 8 * k =
        (i32le (string_to_java_hashcode fv.1.name)
          ++ i32le ((COMPLEX_OBJ_HEADER_LEN : Int) + off)).length + 8 * k from by simp [i32le]]
      rw [List.drop_append (8 * k)]
      rw [ih (off + (fv.1.codec.write fv.2).length) k (by simpa using Nat.lt_of_succ_lt_succ hk)]
      have hget : ((fv :: rest).get ⟨k + 1, hk⟩) = rest.get ⟨k, Nat.lt_of_succ_lt_succ hk⟩ := rfl
      rw [hget]
      congr 1
      congr 1
      have hsz : sizesBefore (fv :: rest) (k + 1) =
          (fv.1.codec.write fv.2).length + sizesBefore rest k := by
        simp [sizesBefore]
      rw [hsz]
      push_cast
      ring

/-- Claim C6: the schema footer the encoder appends after the field payload
consists of one 8-byte (FieldIdentifier, FieldOffset) entry per field in
declaration order; the k-th entry is the little-endian StringHash of the
k-th field's name followed, little-endian, by the header length plus the
total encoded size of the fields written before it. -/
theorem c6_schema_footer (td : TypeDescriptor V) (vals : List V) (k : Nat)
    (hk : k < (td.fields.zip vals).length) :
    ((write td vals).drop
        (COMPLEX_OBJ_HEADER_LEN + (fieldPayload (td.fields.zip vals)).length)).length =
      8 * (td.fields.zip vals).length ∧
    (((write td vals).drop
        (COMPLEX_OBJ_HEADER_LEN + (fieldPayload (td.fields.zip vals)).length)).drop
          (8 * k)).take 8 =
      i32le (string_to_java_hashcode ((td.fields.zip vals).get ⟨k, hk⟩).1.name)
        ++ i32le ((COMPLEX_OBJ_HEADER_LEN : Int) + sizesBefore (td.fields.zip vals) k) := by
  have hdrop : (write td vals).drop
      (COMPLEX_OBJ_HEADER_LEN + (fieldPayload (td.fields.zip vals)).length) =
      schemaFooterFrom 0 (td.fields.zip vals) := by
    rw [write_decomp td vals]
    refine List.drop_left' ?_
    rw [List.length_append, write_header_length td vals]
  constructor
  · rw [hdrop, schemaFooterFrom_length]
  · rw [hdrop]
    have := schemaFooterFrom_entry (td.fields.zip vals) 0 k hk
    rw [this]
    congr 2

/-- Witness for C6: in the encoding of `[7, 9]` under `exTd2`, the second
schema entry is the StringHash of "name" followed by offset 25
(header 24 + the 1 byte of the first field). -/
theorem c6_witness :
    (((write exTd2 [(7 : Fin 256), 9]).drop
        (COMPLEX_OBJ_HEADER_LEN + (fieldPayload (exTd2.fields.zip [(7 : Fin 256), 9])).length)).drop
          (8 * 1)).take 8 =
      i32le (string_to_java_hashcode ((exTd2.fields.zip [(7 : Fin 256), 9]).get ⟨1, by decide⟩).1.name)
        ++ i32le ((COMPLEX_OBJ_HEADER_LEN : Int) + sizesBefore (exTd2.fields.zip [(7 : Fin 256), 9]) 1) :=
  (c6_schema_footer exTd2 [(7 : Fin 256), 9] 1 (by decide)).2

theorem readNonNull_flags_pass (td : TypeDescriptor V) (version b0 b1 : Nat) (rest : List Nat)
    (h1 : (b0 + 256 * b1) &&& FLAG_HAS_SCHEMA ≠ 0)
    (h2 : (b0 + 256 * b1) &&& FLAG_COMPACT_FOOTER = 0)
    (h3 : (b0 + 256 * b1) &&& FLAG_OFFSET_ONE_BYTE = 0)
    (h4 : (b0 + 256 * b1) &&& FLAG_OFFSET_TWO_BYTES = 0) :
    readNonNull td (version :: b0 :: b1 :: rest) = decodeAfterFlags td rest := by
  simp only [readNonNull, readU8, readU16]
  rw [if_neg h1, if_neg (not_not_intro h2), if_neg (by simp [h3, h4])]

/-- Claim C7 (amended: the three flag checks are applied in order, so each
later error presupposes the earlier checks passed): with a non-null type
code, the decoder fails with the schema-expectation error when HasSchema is
unset; with the unsupported-feature error for CompactFooter when HasSchema
is set and CompactFooter is set; and with the unsupported-feature error for
variable-width offsets when HasSchema is set, CompactFooter is unset and
either offset-width bit is set. In every case the remainder after the
2-byte flags field is returned untouched: no field-payload byte is
consumed. -/
theorem c7_flag_rejection_ordered (td : TypeDescriptor V) (tc : TypeCode)
    (htc : tc ≠ TypeCode.Null) (version b0 b1 : Nat) (rest : List Nat) :
    ((b0 + 256 * b1) &&& FLAG_HAS_SCHEMA = 0 →
      read_unwrapped td tc (version :: b0 :: b1 :: rest) =
        Out.err "Serialized object schema expected!" rest) ∧
    ((b0 + 256 * b1) &&& FLAG_HAS_SCHEMA ≠ 0 → (b0 + 256 * b1) &&& FLAG_COMPACT_FOOTER ≠ 0 →
      read_unwrapped td tc (version :: b0 :: b1 :: rest) =
        Out.err "Compact footer is not supported!" rest) ∧
    ((b0 + 256 * b1) &&& FLAG_HAS_SCHEMA ≠ 0 → (b0 + 256 * b1) &&& FLAG_COMPACT_FOOTER = 0 →
      ((b0 + 256 * b1) &&& FLAG_OFFSET_ONE_BYTE ≠ 0 ∨ (b0 + 256 * b1) &&& FLAG_OFFSET_TWO_BYTES ≠ 0) →
      read_unwrapped td tc (version :: b0 :: b1 :: rest) =
        Out.err "Schema offset=4 is expected!" rest) := by
  rw [read_unwrapped_ne_null td tc _ htc]
  refine ⟨?_, ?_, ?_⟩
  · intro h
    simp only [readNonNull, readU8, readU16]
    rw [if_pos h]
  · intro h1 h2
    simp only [readNonNull, readU8, readU16]
    rw [if_neg h1, if_pos h2]
  · intro h1 h2 h3
    simp only [readNonNull, readU8, readU16]
    rw [if_neg h1, if_neg (not_not_intro h2), if_pos h3]

/-- Counterexample for C7 as frozen: on flags `0x0004` (HasSchema unset and
CompactFooter set) the decoder fails with the schema-expectation error, not
the unsupported-feature error the claim requires for any header with
CompactFooter set. -/
theorem c7_counterexample :
    read_unwrapped exTd TypeCode.ComplexObj [1, 4, 0] =
      Out.err "Serialized object schema expected!" [] ∧
    read_unwrapped exTd TypeCode.ComplexObj [1, 4, 0] ≠
      Out.err "Compact footer is not supported!" [] := by
  decide

/-- Witness for C7 (amended): flags `0x0000` yield the schema-expectation
error with the rest of the stream untouched. -/
theorem c7_witness :
    read_unwrapped exTd TypeCode.ComplexObj [1, 0, 0] =
      Out.err "Serialized object schema expected!" [] :=
  (c7_flag_rejection_ordered exTd TypeCode.ComplexObj (by decide) 1 0 0 []).1 (by decide)

/-- Claim C8: when the header flags pass the flag checks and the received
TypeIdentifier differs from the descriptor's resolved identifier, decode
fails with the type-mismatch error naming both the expected and the
received identifier (`typeMismatchMsg`); when they are equal, decoding
proceeds past the check into the rest of the decoder. -/
theorem c8_type_id_mismatch (td : TypeDescriptor V) (tc : TypeCode)
    (htc : tc ≠ TypeCode.Null) (version b0 b1 : Nat) (rid : Int) (rest : List Nat)
    (h1 : (b0 + 256 * b1) &&& FLAG_HAS_SCHEMA ≠ 0)
    (h2 : (b0 + 256 * b1) &&& FLAG_COMPACT_FOOTER = 0)
    (h3 : (b0 + 256 * b1) &&& FLAG_OFFSET_ONE_BYTE = 0)
    (h4 : (b0 + 256 * b1) &&& FLAG_OFFSET_TWO_BYTES = 0) :
    (toSigned32 rid ≠ get_type_id td →
      read_unwrapped td tc (version :: b0 :: b1 :: (i32le rid ++ rest)) =
        Out.err (typeMismatchMsg (get_type_id td) (toSigned32 rid)) rest) ∧
    (toSigned32 rid = get_type_id td →
      read_unwrapped td tc (version :: b0 :: b1 :: (i32le rid ++ rest)) =
        decodeAfterId td rest) := by
  rw [read_unwrapped_ne_null td tc _ htc,
    readNonNull_flags_pass td version b0 b1 _ h1 h2 h3 h4]
  unfold decodeAfterFlags
  rw [readI32_i32le]
  constructor
  · intro hne
    dsimp only
    rw [if_neg hne]
  · intro heq
    dsimp only
    rw [if_pos heq]

/-- Witness for C8: decoding a stream carrying TypeIdentifier 0 with `exTd`
(resolved TypeIdentifier `StringHash("T") = 84`) fails with the
type-mismatch error naming 84 and 0. -/
theorem c8_witness :
    read_unwrapped exTd TypeCode.ComplexObj (1 :: 3 :: 0 :: (i32le 0 ++ [])) =
      Out.err (typeMismatchMsg (get_type_id exTd) (toSigned32 0)) [] :=
  (c8_type_id_mismatch exTd TypeCode.ComplexObj (by decide) 1 3 0 0 []
    (by decide) (by decide) (by decide) (by decide)).1 (by decide)

theorem fieldsRead_absent (fs1 : List (Field V)) (f : Field V) (fs2 : List (Field V))
    (s s1 s2 : List Nat) (vs : List V)
    (hpre : fieldsRead fs1 s = FOut.ok vs s1)
    (habs : f.codec.read s1 = CodecRes.ok none s2) :
    fieldsRead (fs1 ++ f :: fs2) s = FOut.panicked s2 := by
  induction fs1 generalizing s vs with
  | nil =>
    simp only [fieldsRead] at hpre
    cases hpre
    simp only [List.nil_append]
    unfold fieldsRead
    rw [habs]
  | cons g gs ih =>
    unfold fieldsRead at hpre
    show fieldsRead (g :: (gs ++ f :: fs2)) s = FOut.panicked s2
    unfold fieldsRead
    cases hg : g.codec.read s with
    | err e t => rw [hg] at hpre; cases hpre
    | ok ov t =>
      cases ov with
      | none => rw [hg] at hpre; cases hpre
      | some v =>
        rw [hg] at hpre
        dsimp only at hpre ⊢
        cases hf : fieldsRead gs t with
        | err e t2 => rw [hf] at hpre; cases hpre
        | panicked t2 => rw [hf] at hpre; cases hpre
        | ok vs2 t2 =>
          rw [hf] at hpre
          cases hpre
          rw [ih t vs2 hf]

/-- Claim C9 (amended: the failure is an unwrap panic, not an error result):
whenever decoding reaches the field-reading loop and some field's value
codec returns `Ok(None)` (the earlier fields having decoded normally), the
generated decode panics via `.unwrap()` on `None` — the caller never
receives a `MissingRequiredField` (or any) error value. -/
theorem c9_absent_field_panics (td : TypeDescriptor V) (tc : TypeCode)
    (htc : tc ≠ TypeCode.Null) (version b0 b1 : Nat) (a b c d : Int)
    (h1 : (b0 + 256 * b1) &&& FLAG_HAS_SCHEMA ≠ 0)
    (h2 : (b0 + 256 * b1) &&& FLAG_COMPACT_FOOTER = 0)
    (h3 : (b0 + 256 * b1) &&& FLAG_OFFSET_ONE_BYTE = 0)
    (h4 : (b0 + 256 * b1) &&& FLAG_OFFSET_TWO_BYTES = 0)
    (s s1 s2 : List Nat) (vs : List V)
    (fs1 : List (Field V)) (f : Field V) (fs2 : List (Field V))
    (hfs : td.fields = fs1 ++ f :: fs2)
    (hpre : fieldsRead fs1 s = FOut.ok vs s1)
    (habs : f.codec.read s1 = CodecRes.ok none s2) :
    read_unwrapped td tc
      (version :: b0 :: b1 ::
        (i32le (get_type_id td)
          ++ (i32le a ++ (i32le b ++ (i32le c ++ (i32le d ++ s)))))) =
      Out.panicked s2 := by
  rw [read_unwrapped_ne_null td tc _ htc,
    readNonNull_flags_pass td version b0 b1 _ h1 h2 h3 h4,
    decodeAfterFlags_id]
  unfold decodeAfterId
  rw [readI32_i32le a]
  dsimp only
  rw [readI32_i32le b]
  dsimp only
  rw [readI32_i32le c]
  dsimp only
  rw [readI32_i32le d]
  dsimp only
  rw [hfs, fieldsRead_absent fs1 f fs2 s s1 s2 vs hpre habs]

/-- Counterexample for C9 as frozen: with `absentTd` (one field whose codec
decodes `None`), the decode call on a well-formed header ends in a panic —
the outcome is `panicked`, not an error result delivered to the caller. -/
theorem c9_counterexample :
    read_unwrapped absentTd TypeCode.ComplexObj
      (1 :: 3 :: 0 :: (i32le (get_type_id absentTd)
        ++ (i32le 0 ++ (i32le 0 ++ (i32le 0 ++ (i32le 0 ++ [])))))) =
      Out.panicked [] ∧
    (read_unwrapped absentTd TypeCode.ComplexObj
      (1 :: 3 :: 0 :: (i32le (get_type_id absentTd)
        ++ (i32le 0 ++ (i32le 0 ++ (i32le 0 ++ (i32le 0 ++ []))))))).isErr = false := by
  decide

/-- Witness for C9 (amended): the concrete decode call on `absentTd` panics. -/
theorem c9_witness :
    read_unwrapped absentTd TypeCode.ComplexObj
      (1 :: 3 :: 0 :: (i32le (get_type_id absentTd)
        ++ (i32le 0 ++ (i32le 0 ++ (i32le 0 ++ (i32le 0 ++ [])))))) =
      Out.panicked [] :=
  c9_absent_field_panics absentTd TypeCode.ComplexObj (by decide) 1 3 0 0 0 0 0
    (by decide) (by decide) (by decide) (by decide)
    [] [] [] [] [] { name := "id", codec := absentCodec } []
    rfl rfl rfl

/-- Claim C10: `read_unwrapped` with `TypeCode.Null` returns `Ok(None)`
without consuming any byte, and any two non-null type codes make the decoder
behave identically on the same stream — the result depends on the type code
only through whether it is null. -/
theorem c10_null_and_code_blindness (td : TypeDescriptor V) (s : List Nat) :
    read_unwrapped td TypeCode.Null s = Out.ok none s ∧
    ∀ tc1 tc2 : TypeCode, tc1 ≠ TypeCode.Null → tc2 ≠ TypeCode.Null →
      read_unwrapped td tc1 s = read_unwrapped td tc2 s := by
  refine ⟨rfl, ?_⟩
  intro tc1 tc2 h1 h2
  rw [read_unwrapped_ne_null td tc1 s h1, read_unwrapped_ne_null td tc2 s h2]

/-- Witness for C10: on `exTd`, Null returns `Ok(None)` leaving `[7]`
untouched, and the `ComplexObj` and `Int` type codes decode `[]`
identically. -/
theorem c10_witness :
    read_unwrapped exTd TypeCode.Null [7] = Out.ok none [7] ∧
    read_unwrapped exTd TypeCode.ComplexObj [] = read_unwrapped exTd TypeCode.Int [] :=
  ⟨(c10_null_and_code_blindness exTd [7]).1,
   (c10_null_and_code_blindness exTd []).2 TypeCode.ComplexObj TypeCode.Int
     (by decide) (by decide)⟩

end Ignite
